import Mathlib

/-
Verification of the `BlockRect` value type from GeoRSGPU
(src/GeoRsGPU/BlockRect.h).

The header declares the class with four private `int` fields
(`m_rowStart`, `m_colStart`, `m_height`, `m_width`), a constructor
`BlockRect(int rowStart, int colStart, int height, int width)`, a const
predicate `contains(int rowIndex, int colIndex)`, four inline const
accessors, and `operator==`.  The bodies of the constructor, of
`contains` and of `operator==` are implemented in a translation unit
that is not part of the supplied source, so those three are modelled
from the specification; the accessors are inline in the header and are
translated from it directly.  The spec treats the fields as ordinary
integers, so fields are embedded as `Int`.
-/

namespace GeoRsGpu

/-- The `BlockRect` class of src/GeoRsGPU/BlockRect.h: four integer
fields `m_rowStart`, `m_colStart`, `m_height`, `m_width`. -/
structure BlockRect where
  m_rowStart : Int
  m_colStart : Int
  m_height : Int
  m_width : Int
deriving DecidableEq, Repr

/-- Modelled from the spec: the body of the constructor
`BlockRect::BlockRect(int rowStart, int colStart, int height, int width)`
is declared in src/GeoRsGPU/BlockRect.h line 30 but implemented outside
the supplied source.  Per spec section 4.1, `create` "stores the four
integers verbatim. No validation is performed; any integers (including
negative height/width) are accepted as-is." -/
def BlockRect.create (rowStart colStart height width : Int) : BlockRect :=
  ⟨rowStart, colStart, height, width⟩

/-- Inline accessor `getRowStart` from src/GeoRsGPU/BlockRect.h line 33:
`return m_rowStart;`. -/
def BlockRect.getRowStart (b : BlockRect) : Int := b.m_rowStart

/-- Inline accessor `getColStart` from src/GeoRsGPU/BlockRect.h line 34:
`return m_colStart;`. -/
def BlockRect.getColStart (b : BlockRect) : Int := b.m_colStart

/-- Inline accessor `getHeight` from src/GeoRsGPU/BlockRect.h line 35:
`return m_height;`. -/
def BlockRect.getHeight (b : BlockRect) : Int := b.m_height

/-- Inline accessor `getWidth` from src/GeoRsGPU/BlockRect.h line 36:
`return m_width;`. -/
def BlockRect.getWidth (b : BlockRect) : Int := b.m_width

/-- Modelled from the spec: the body of
`bool BlockRect::contains(int rowIndex, int colIndex) const`
(declared src/GeoRsGPU/BlockRect.h line 31) is implemented outside the
supplied source.  Per spec section 4.1, it "returns true if and only if
`rowIndex` falls within `[rowStart, rowStart + height)` AND `colIndex`
falls within `[colStart, colStart + width)`", both bounds half-open
(lower inclusive, upper exclusive), with no special case for
non-positive height or width. -/
def BlockRect.contains (b : BlockRect) (rowIndex colIndex : Int) : Bool :=
  (b.m_rowStart ≤ rowIndex && rowIndex < b.m_rowStart + b.m_height) &&
  (b.m_colStart ≤ colIndex && colIndex < b.m_colStart + b.m_width)

/-- Modelled from the spec: the body of
`bool BlockRect::operator==(const BlockRect& block) const`
(declared src/GeoRsGPU/BlockRect.h line 38) is implemented outside the
supplied source.  Per spec section 4.1, it "returns true if and only if
all four fields (`rowStart`, `colStart`, `height`, `width`) are pairwise
equal to the corresponding fields of `other`" -- structural value
equality. -/
def BlockRect.beq (a b : BlockRect) : Bool :=
  a.m_rowStart == b.m_rowStart && a.m_colStart == b.m_colStart &&
  a.m_height == b.m_height && a.m_width == b.m_width

/-- The implicit C++ copy of a `BlockRect`: the class in
src/GeoRsGPU/BlockRect.h declares no copy constructor, so copying is the
implicit memberwise copy of its four `int` fields. -/
def BlockRect.copy (b : BlockRect) : BlockRect :=
  ⟨b.m_rowStart, b.m_colStart, b.m_height, b.m_width⟩

/-- One public method call on a `BlockRect` receiver, as declared in
src/GeoRsGPU/BlockRect.h lines 31-38. -/
inductive MethodCall where
  | getRowStart : MethodCall
  | getColStart : MethodCall
  | getHeight : MethodCall
  | getWidth : MethodCall
  | containsAt (rowIndex colIndex : Int) : MethodCall
  | equalsTo (other : BlockRect) : MethodCall
deriving Repr

/-- State of the receiver after one public method call.  Every public
method of `BlockRect` in src/GeoRsGPU/BlockRect.h is declared `const`,
the class has no `mutable` member, and the modelled bodies read the four
fields only, so each call leaves the receiver's fields as they were. -/
def BlockRect.invoke (b : BlockRect) (m : MethodCall) : BlockRect :=
  match m with
  | MethodCall.getRowStart => b
  | MethodCall.getColStart => b
  | MethodCall.getHeight => b
  | MethodCall.getWidth => b
  | MethodCall.containsAt _ _ => b
  | MethodCall.equalsTo _ => b

/-- State of the receiver after a sequence of public method calls. -/
def BlockRect.invokeAll (b : BlockRect) (ms : List MethodCall) : BlockRect :=
  ms.foldl BlockRect.invoke b

end GeoRsGpu

namespace GeoRsGpu

/-- Helper: `beq` holds exactly when the four fields agree. -/
theorem BlockRect.beq_eq_true_iff (a b : BlockRect) :
    a.beq b = true ↔
      a.m_rowStart = b.m_rowStart ∧ a.m_colStart = b.m_colStart ∧
      a.m_height = b.m_height ∧ a.m_width = b.m_width := by
  simp [BlockRect.beq, and_assoc]

/-- C1: for every rectangle `create(rowStart, colStart, height, width)`
and all integers `rowIndex`, `colIndex`, `contains rowIndex colIndex`
returns true iff `rowIndex` lies in `[rowStart, rowStart + height)` and
`colIndex` lies in `[colStart, colStart + width)`. -/
theorem contains_iff_halfopen (rowStart colStart height width rowIndex colIndex : Int) :
    (BlockRect.create rowStart colStart height width).contains rowIndex colIndex = true ↔
      (rowStart ≤ rowIndex ∧ rowIndex < rowStart + height) ∧
      (colStart ≤ colIndex ∧ colIndex < colStart + width) := by
  simp [BlockRect.create, BlockRect.contains, and_assoc]

/-- C2: `create r c h w` stores the four integers verbatim, with no
validation: each accessor returns exactly the argument stored for its
field, for any integers including negative height or width. -/
theorem create_accessor_roundtrip (r c h w : Int) :
    (BlockRect.create r c h w).getRowStart = r ∧
    (BlockRect.create r c h w).getColStart = c ∧
    (BlockRect.create r c h w).getHeight = h ∧
    (BlockRect.create r c h w).getWidth = w :=
  ⟨rfl, rfl, rfl, rfl⟩

/-- C3: for every rectangle whose height or width is non-positive,
`contains` returns false for every pair of integer arguments (the
degenerate-false behaviour of the half-open inequality form). -/
theorem contains_degenerate_false (b : BlockRect)
    (hdeg : b.m_height ≤ 0 ∨ b.m_width ≤ 0) (rowIndex colIndex : Int) :
    b.contains rowIndex colIndex = false := by
  rw [Bool.eq_false_iff]
  intro hcontra
  simp only [BlockRect.contains, Bool.and_eq_true, decide_eq_true_eq] at hcontra
  omega

/-- Witness for C3 at the concrete rectangle `create 5 7 0 3` and the
point `(5, 7)`. -/
theorem contains_degenerate_false_witness :
    (BlockRect.create 5 7 0 3).contains 5 7 = false :=
  contains_degenerate_false (BlockRect.create 5 7 0 3) (Or.inl (by decide)) 5 7

/-- C4: `operator==` returns true iff all four fields of the two
rectangles are pairwise equal -- structural value equality. -/
theorem beq_iff_fields_equal (a b : BlockRect) :
    a.beq b = true ↔
      a.m_rowStart = b.m_rowStart ∧ a.m_colStart = b.m_colStart ∧
      a.m_height = b.m_height ∧ a.m_width = b.m_width :=
  BlockRect.beq_eq_true_iff a b

/-- C5: for `R = create r c h w` with `h > 0` and `w > 0`, the two inner
corners `(r, c)` and `(r + h - 1, c + w - 1)` are contained while
`(r + h, c)` and `(r, c + w)` are not (exclusive upper bound); and in
the concrete scenario `R = create 10 20 5 3`, the points `(10,20)` and
`(14,22)` are inside while `(15,20)`, `(10,23)` and `(9,20)` are not. -/
theorem contains_corners (r c h w : Int) (hh : 0 < h) (hw : 0 < w) :
    ((BlockRect.create r c h w).contains r c = true ∧
     (BlockRect.create r c h w).contains (r + h - 1) (c + w - 1) = true ∧
     (BlockRect.create r c h w).contains (r + h) c = false ∧
     (BlockRect.create r c h w).contains r (c + w) = false) ∧
    ((BlockRect.create 10 20 5 3).contains 10 20 = true ∧
     (BlockRect.create 10 20 5 3).contains 14 22 = true ∧
     (BlockRect.create 10 20 5 3).contains 15 20 = false ∧
     (BlockRect.create 10 20 5 3).contains 10 23 = false ∧
     (BlockRect.create 10 20 5 3).contains 9 20 = false) := by
  refine ⟨⟨?_, ?_, ?_, ?_⟩, by decide, by decide, by decide, by decide, by decide⟩
  · simp only [BlockRect.create, BlockRect.contains, Bool.and_eq_true,
      decide_eq_true_eq]
    omega
  · simp only [BlockRect.create, BlockRect.contains, Bool.and_eq_true,
      decide_eq_true_eq]
    omega
  · simp only [BlockRect.create, BlockRect.contains, Bool.and_eq_false_iff,
      decide_eq_false_iff_not, not_lt]
    omega
  · simp only [BlockRect.create, BlockRect.contains, Bool.and_eq_false_iff,
      decide_eq_false_iff_not, not_lt]
    omega

/-- Witness for C5 at the concrete rectangle `create 10 20 5 3`. -/
theorem contains_corners_witness :
    ((BlockRect.create 10 20 5 3).contains 10 20 = true ∧
     (BlockRect.create 10 20 5 3).contains 14 22 = true ∧
     (BlockRect.create 10 20 5 3).contains 15 20 = false ∧
     (BlockRect.create 10 20 5 3).contains 10 23 = false ∧
     (BlockRect.create 10 20 5 3).contains 9 20 = false) :=
  (contains_corners 10 20 5 3 (by decide) (by decide)).2

/-- C6: equality is reflexive and symmetric, and changing exactly one of
the four fields decides equality to false precisely when the new value
differs (so `create 1 2 3 4` equals itself but not `create 1 2 3 5`). -/
theorem beq_refl_symm_fieldwise :
    (∀ a : BlockRect, a.beq a = true) ∧
    (∀ a b : BlockRect, a.beq b = b.beq a) ∧
    (∀ r c h w x : Int,
      (BlockRect.create r c h w).beq (BlockRect.create x c h w) = (r == x) ∧
      (BlockRect.create r c h w).beq (BlockRect.create r x h w) = (c == x) ∧
      (BlockRect.create r c h w).beq (BlockRect.create r c x w) = (h == x) ∧
      (BlockRect.create r c h w).beq (BlockRect.create r c h x) = (w == x)) ∧
    (BlockRect.create 1 2 3 4).beq (BlockRect.create 1 2 3 4) = true ∧
    (BlockRect.create 1 2 3 4).beq (BlockRect.create 1 2 3 5) = false := by
  refine ⟨?_, ?_, ?_, by decide, by decide⟩
  · intro a
    simp [BlockRect.beq]
  · intro a b
    rw [Bool.eq_iff_iff]
    simp only [BlockRect.beq, Bool.and_eq_true, beq_iff_eq]
    omega
  · intro r c h w x
    refine ⟨?_, ?_, ?_, ?_⟩ <;>
      · rw [Bool.eq_iff_iff, BlockRect.beq_eq_true_iff]
        simp [BlockRect.create, beq_iff_eq]

/-- C7: every operation of the type -- construction, the four accessors,
`contains`, and `operator==` -- is total over its integer input domain:
for every input each of them yields a result, with no failure value or
error branch. -/
theorem operations_total (r c h w rowIndex colIndex : Int) (a b : BlockRect) :
    (∃ x : BlockRect, BlockRect.create r c h w = x) ∧
    (∃ n : Int, a.getRowStart = n) ∧
    (∃ n : Int, a.getColStart = n) ∧
    (∃ n : Int, a.getHeight = n) ∧
    (∃ n : Int, a.getWidth = n) ∧
    (∃ v : Bool, a.contains rowIndex colIndex = v) ∧
    (∃ v : Bool, a.beq b = v) :=
  ⟨⟨_, rfl⟩, ⟨_, rfl⟩, ⟨_, rfl⟩, ⟨_, rfl⟩, ⟨_, rfl⟩, ⟨_, rfl⟩, ⟨_, rfl⟩⟩

/-- C8: a rectangle is immutable after construction: every sequence of
public method calls leaves the receiver's state unchanged, so all four
accessor values after the sequence equal their values before it. -/
theorem immutable_after_construction (b : BlockRect) (ms : List MethodCall) :
    b.invokeAll ms = b ∧
    (b.invokeAll ms).getRowStart = b.getRowStart ∧
    (b.invokeAll ms).getColStart = b.getColStart ∧
    (b.invokeAll ms).getHeight = b.getHeight ∧
    (b.invokeAll ms).getWidth = b.getWidth := by
  have hfix : b.invokeAll ms = b := by
    induction ms generalizing b with
    | nil => rfl
    | cons m rest ih =>
        have hstep : b.invoke m = b := by cases m <;> rfl
        simpa [BlockRect.invokeAll, List.foldl_cons, hstep] using ih b
  exact ⟨hfix, by rw [hfix], by rw [hfix], by rw [hfix], by rw [hfix]⟩

/-- C9: equality is observational: if `a == b` then every observer
agrees on `a` and `b` -- the four accessors return the same values, and
`contains` agrees at every pair of integer indices. -/
theorem beq_observational (a b : BlockRect) (heq : a.beq b = true) :
    a.getRowStart = b.getRowStart ∧ a.getColStart = b.getColStart ∧
    a.getHeight = b.getHeight ∧ a.getWidth = b.getWidth ∧
    ∀ rowIndex colIndex : Int,
      a.contains rowIndex colIndex = b.contains rowIndex colIndex := by
  have hfields := (BlockRect.beq_eq_true_iff a b).mp heq
  obtain ⟨h1, h2, h3, h4⟩ := hfields
  refine ⟨h1, h2, h3, h4, ?_⟩
  intro rowIndex colIndex
  simp [BlockRect.contains, h1, h2, h3, h4]

/-- Witness for C9 at the pair `create 1 2 3 4`, `create 1 2 3 4`:
their accessors agree and `contains` agrees at `(1, 2)`. -/
theorem beq_observational_witness :
    (BlockRect.create 1 2 3 4).getRowStart = (BlockRect.create 1 2 3 4).getRowStart ∧
    (BlockRect.create 1 2 3 4).getColStart = (BlockRect.create 1 2 3 4).getColStart ∧
    (BlockRect.create 1 2 3 4).getHeight = (BlockRect.create 1 2 3 4).getHeight ∧
    (BlockRect.create 1 2 3 4).getWidth = (BlockRect.create 1 2 3 4).getWidth ∧
    ∀ rowIndex colIndex : Int,
      (BlockRect.create 1 2 3 4).contains rowIndex colIndex =
        (BlockRect.create 1 2 3 4).contains rowIndex colIndex :=
  beq_observational (BlockRect.create 1 2 3 4) (BlockRect.create 1 2 3 4) (by decide)

/-- C10: the type is copyable with value semantics: the memberwise copy
of any rectangle compares equal to it under `operator==`, returns the
same values from all four accessors, and copying leaves the original's
fields untouched. -/
theorem copy_value_semantics (b : BlockRect) :
    (b.copy).beq b = true ∧
    (b.copy).getRowStart = b.getRowStart ∧
    (b.copy).getColStart = b.getColStart ∧
    (b.copy).getHeight = b.getHeight ∧
    (b.copy).getWidth = b.getWidth ∧
    (b.copy = b) := by
  refine ⟨?_, rfl, rfl, rfl, rfl, rfl⟩
  simp [BlockRect.copy, BlockRect.beq]

end GeoRsGpu
